import Mathlib

/-!
Shallow embedding of the eBPF benchmark programs in
`src/c/programs/ringbuf_throughput.c`, `src/c/programs/perfbuf_throughput.c`,
`src/c/programs/map_operations.c` and the shared header
`src/c/headers/benchmark.h`, together with theorems settling the frozen
claims about them.

Machine integers (`__u64`, `__u32`) are modelled as `Nat`, with an explicit
`% 2 ^ 64` applied exactly where the C code can overflow (the
`__sync_fetch_and_add` counter increments and the spec-modelled statistics
sums).  Each eBPF program is a pure function from the ambient kernel context
(an `Env`: the values returned by the bpf helper calls made during the
invocation) and the pre-call map/buffer state to a return code and post-call
state.  Fallibility of `bpf_ringbuf_reserve` is represented by the explicit
capacity test the kernel performs: the reservation succeeds iff the
requested size still fits in the buffer.
-/

namespace EbpfBench

/-- The modulus of the C `__u64` type. -/
def U64 : Nat := 2 ^ 64

/-- Size in bytes of `struct event` (benchmark.h lines 19-25): one `__u64`
plus four `__u32` fields. -/
def eventSize : Nat := 24

/-- Size in bytes of `struct latency_event` (map_operations.c lines 54-59):
two `__u64` plus two `__u32` fields. -/
def latencyEventSize : Nat := 24

/-- Event type constant `EVENT_TYPE_KPROBE` (benchmark.h line 42). -/
def EVENT_TYPE_KPROBE : Nat := 1

/-- Event type constant `EVENT_TYPE_TRACEPOINT` (benchmark.h line 43). -/
def EVENT_TYPE_TRACEPOINT : Nat := 2

/-- Event type constant `EVENT_TYPE_UPROBE` (benchmark.h line 44). -/
def EVENT_TYPE_UPROBE : Nat := 3

/-- Event type constant `EVENT_TYPE_XDP` (benchmark.h line 45). -/
def EVENT_TYPE_XDP : Nat := 4

/-- Event type constant `EVENT_TYPE_TC` (benchmark.h line 46). -/
def EVENT_TYPE_TC : Nat := 5

/-- `max_entries` of `hash_map` (map_operations.c line 20). -/
def hashMapMaxEntries : Nat := 10240

/-- `max_entries` of `array_map` (map_operations.c line 28). -/
def arrayMapMaxEntries : Nat := 256

/-- `max_entries` of `percpu_array` (map_operations.c line 36). -/
def percpuArrayMaxEntries : Nat := 256

/-- `max_entries` of `percpu_hash` (map_operations.c line 44). -/
def percpuHashMaxEntries : Nat := 1024

/-- `max_entries` of the `counters` array map (ringbuf_throughput.c line 25,
perfbuf_throughput.c line 25). -/
def countersMaxEntries : Nat := 10

/-- `max_entries` of the `ringbuf_events` ring buffer (256 * 1024 bytes). -/
def ringbufCapacity : Nat := 256 * 1024

/-- The ambient kernel context observed by one eBPF program invocation:
the values returned by the bpf helper calls and the context-argument
reads the program performs.  `ts i` is the value returned by the
i-th `bpf_ktime_get_ns()` call of the invocation (0-indexed, in program
order). -/
structure Env where
  pidtgid : Nat
  uidgid : Nat
  cpu : Nat
  ts : Nat → Nat
  parm1 : Nat
  arg1 : Nat

/-- `struct event` (benchmark.h lines 19-25).  `struct benchmark_perf_event`
(perfbuf_throughput.c lines 32-38) has exactly the same five fields and is
represented by the same type. -/
structure Event where
  timestamp : Nat
  pid : Nat
  cpu_id : Nat
  event_type : Nat
  data : Nat
deriving DecidableEq, Repr

/-- `struct latency_event` (map_operations.c lines 54-59). -/
structure LatencyEvent where
  timestamp_start : Nat
  timestamp_end : Nat
  operation : Nat
  pid : Nat
deriving DecidableEq, Repr

/-- A `BPF_MAP_TYPE_RINGBUF` map: a bounded byte buffer holding the
committed records in commit order.  `used` is the number of bytes
currently reserved; `bpf_ringbuf_reserve(sz)` succeeds iff
`used + sz ≤ cap`. -/
structure Ring (α : Type) where
  cap : Nat
  used : Nat
  events : List α

/-- The combined effect of a successful `bpf_ringbuf_reserve` followed by
`bpf_ringbuf_submit`: the record becomes visible at the tail and its bytes
are accounted as used. -/
def Ring.submit {α : Type} (r : Ring α) (sz : Nat) (e : α) : Ring α :=
  ⟨r.cap, r.used + sz, r.events ++ [e]⟩

/-- `bpf_map_lookup_elem` on a `BPF_MAP_TYPE_ARRAY` / `PERCPU_ARRAY` map
(entries are preallocated): returns a pointer to the slot iff the key is
below `max_entries`, otherwise NULL. -/
def arrayLookup (maxEntries : Nat) (vals : Nat → Nat) (k : Nat) : Option Nat :=
  if k < maxEntries then some (vals k) else none

/-- The key computation shared by all five map benchmarks
(map_operations.c lines 69, 98, 130, 165, 197):
`(bpf_get_current_pid_uid() >> 32) & 0xFF`. -/
def mapKey (pidtgid : Nat) : Nat := (pidtgid >>> 32) &&& 0xFF

/-- State touched by map_operations.c: the four benchmark maps and the
`ringbuf_events` ring buffer.  Per-CPU maps are a function of the CPU id
first.  `bpf_map_update_elem(&hash_map, ..., BPF_ANY)` is modelled as
always succeeding: the programs never check its return value and the
benchmark keys span at most 256 of the 10240 hash slots. -/
structure MapOpsState where
  hash_map : Nat → Option Nat
  array_map : Nat → Nat
  percpu_array : Nat → Nat → Nat
  percpu_hash : Nat → Nat → Option Nat
  ringbuf : Ring LatencyEvent

/-- `hash_map_lookup` (map_operations.c lines 66-90): hash lookup between
two timestamps, then a latency event via reserve/submit; returns 1 when
the reservation fails. -/
def hash_map_lookup (env : Env) (s : MapOpsState) : Nat × MapOpsState :=
  let key := mapKey env.pidtgid
  let tStart := env.ts 0
  let _val := s.hash_map key
  let tEnd := env.ts 1
  if s.ringbuf.used + latencyEventSize ≤ s.ringbuf.cap then
    (0, { s with ringbuf :=
      s.ringbuf.submit latencyEventSize ⟨tStart, tEnd, 0, env.pidtgid >>> 32⟩ })
  else
    (1, s)

/-- `hash_map_update` (map_operations.c lines 95-120): writes the first
timestamp into `hash_map` at the masked key, then records the latency of
the update between the second and third timestamps. -/
def hash_map_update (env : Env) (s : MapOpsState) : Nat × MapOpsState :=
  let key := mapKey env.pidtgid
  let value := env.ts 0
  let tStart := env.ts 1
  let s1 := { s with hash_map := fun k => if k = key then some value else s.hash_map k }
  let tEnd := env.ts 2
  if s1.ringbuf.used + latencyEventSize ≤ s1.ringbuf.cap then
    (0, { s1 with ringbuf :=
      s1.ringbuf.submit latencyEventSize ⟨tStart, tEnd, 1, env.pidtgid >>> 32⟩ })
  else
    (1, s1)

/-- `array_map_benchmark` (map_operations.c lines 127-155): array lookup
and, when the slot exists, a `__sync_fetch_and_add(val, 1)` (wrapping at
2^64), then a latency event. -/
def array_map_benchmark (env : Env) (s : MapOpsState) : Nat × MapOpsState :=
  let key := mapKey env.pidtgid
  let tStart := env.ts 0
  let s1 :=
    match arrayLookup arrayMapMaxEntries s.array_map key with
    | some v => { s with array_map := fun k => if k = key then (v + 1) % U64 else s.array_map k }
    | none => s
  let tEnd := env.ts 1
  if s1.ringbuf.used + latencyEventSize ≤ s1.ringbuf.cap then
    (0, { s1 with ringbuf :=
      s1.ringbuf.submit latencyEventSize ⟨tStart, tEnd, 2, env.pidtgid >>> 32⟩ })
  else
    (1, s1)

/-- `percpu_array_benchmark` (map_operations.c lines 162-189): the same
lookup-and-increment on the invoking CPU's copy of `percpu_array`. -/
def percpu_array_benchmark (env : Env) (s : MapOpsState) : Nat × MapOpsState :=
  let key := mapKey env.pidtgid
  let tStart := env.ts 0
  let s1 :=
    match arrayLookup percpuArrayMaxEntries (s.percpu_array env.cpu) key with
    | some v => { s with percpu_array := fun c k =>
        if c = env.cpu ∧ k = key then (v + 1) % U64 else s.percpu_array c k }
    | none => s
  let tEnd := env.ts 1
  if s1.ringbuf.used + latencyEventSize ≤ s1.ringbuf.cap then
    (0, { s1 with ringbuf :=
      s1.ringbuf.submit latencyEventSize ⟨tStart, tEnd, 3, env.pidtgid >>> 32⟩ })
  else
    (1, s1)

/-- `percpu_hash_benchmark` (map_operations.c lines 194-224): lookup in the
invoking CPU's shard of `percpu_hash`; on a miss the key is initialized to
1 via `bpf_map_update_elem`, on a hit the value is incremented by
`__sync_fetch_and_add(val, 1)` (wrapping at 2^64); then a latency event. -/
def percpu_hash_benchmark (env : Env) (s : MapOpsState) : Nat × MapOpsState :=
  let key := mapKey env.pidtgid
  let tStart := env.ts 0
  let s1 :=
    match s.percpu_hash env.cpu key with
    | none => { s with percpu_hash := fun c k =>
        if c = env.cpu ∧ k = key then some 1 else s.percpu_hash c k }
    | some v => { s with percpu_hash := fun c k =>
        if c = env.cpu ∧ k = key then some ((v + 1) % U64) else s.percpu_hash c k }
  let tEnd := env.ts 1
  if s1.ringbuf.used + latencyEventSize ≤ s1.ringbuf.cap then
    (0, { s1 with ringbuf :=
      s1.ringbuf.submit latencyEventSize ⟨tStart, tEnd, 4, env.pidtgid >>> 32⟩ })
  else
    (1, s1)

/-- State touched by ringbuf_throughput.c: the `ringbuf_events` ring buffer
and the `counters` array map (10 slots). -/
structure RbThroughputState where
  ringbuf : Ring Event
  counters : Nat → Nat

/-- The `bpf_map_lookup_elem(&counters, &i)` / `if (counter)`
`__sync_fetch_and_add(counter, 1)` pattern shared by all six throughput
programs: increments slot `i` (wrapping at 2^64) when the lookup succeeds,
otherwise leaves the map untouched. -/
def bumpCounter (c : Nat → Nat) (i : Nat) : Nat → Nat :=
  match arrayLookup countersMaxEntries c i with
  | some v => fun j => if j = i then (v + 1) % U64 else c j
  | none => c

/-- `kprobe_openat` (ringbuf_throughput.c lines 34-62): reserve an event
slot (returning 1 on failure), fill it with `EVENT_TYPE_KPROBE` and
`PT_REGS_PARM1(ctx)`, submit, then bump counter slot 0. -/
def kprobe_openat (env : Env) (s : RbThroughputState) : Nat × RbThroughputState :=
  if s.ringbuf.used + eventSize ≤ s.ringbuf.cap then
    let e : Event := ⟨env.ts 0, env.uidgid >>> 32, env.cpu, EVENT_TYPE_KPROBE, env.parm1⟩
    (0, ⟨s.ringbuf.submit eventSize e, bumpCounter s.counters 0⟩)
  else
    (1, s)

/-- `tracepoint_openat` (ringbuf_throughput.c lines 70-97): same protocol
with `EVENT_TYPE_TRACEPOINT`, `ctx->args[1]` as payload, and counter
slot 1. -/
def tracepoint_openat (env : Env) (s : RbThroughputState) : Nat × RbThroughputState :=
  if s.ringbuf.used + eventSize ≤ s.ringbuf.cap then
    let e : Event := ⟨env.ts 0, env.uidgid >>> 32, env.cpu, EVENT_TYPE_TRACEPOINT, env.arg1⟩
    (0, ⟨s.ringbuf.submit eventSize e, bumpCounter s.counters 1⟩)
  else
    (1, s)

/-- `raw_tracepoint_handler` (ringbuf_throughput.c lines 105-132): same
protocol with counter slot 2 and payload 0.  Note the source sets
`e->event_type = EVENT_TYPE_TRACEPOINT` (line 120), not a distinct
raw-tracepoint constant. -/
def raw_tracepoint_handler (env : Env) (s : RbThroughputState) : Nat × RbThroughputState :=
  if s.ringbuf.used + eventSize ≤ s.ringbuf.cap then
    let e : Event := ⟨env.ts 0, env.uidgid >>> 32, env.cpu, EVENT_TYPE_TRACEPOINT, 0⟩
    (0, ⟨s.ringbuf.submit eventSize e, bumpCounter s.counters 2⟩)
  else
    (1, s)

/-- A `BPF_MAP_TYPE_PERF_EVENT_ARRAY` perf buffer: one fixed-capacity
circular buffer of records per CPU.  A write is unconditional and evicts
the oldest record when the CPU's buffer is full. -/
structure PerfBuf where
  cap : Nat
  bufs : Nat → List Event

/-- `bpf_perf_event_output(..., BPF_F_CURRENT_CPU, &event, sizeof(event))`:
appends the record to the invoking CPU's circular buffer, dropping the
oldest record first when the buffer is at capacity.  There is no
reservation step and no failure is surfaced to the caller. -/
def PerfBuf.write (pb : PerfBuf) (cpu : Nat) (e : Event) : PerfBuf :=
  { pb with bufs := fun c =>
      if c = cpu then
        (if (pb.bufs cpu).length < pb.cap then pb.bufs cpu else (pb.bufs cpu).drop 1) ++ [e]
      else pb.bufs c }

/-- State touched by perfbuf_throughput.c: the `perf_events` perf buffer
and the `counters` array map. -/
structure PerfThroughputState where
  perf : PerfBuf
  counters : Nat → Nat

/-- `kprobe_perf` (perfbuf_throughput.c lines 45-67): builds the event,
writes it unconditionally to the current CPU's perf buffer, bumps counter
slot 0 and always returns 0. -/
def kprobe_perf (env : Env) (s : PerfThroughputState) : Nat × PerfThroughputState :=
  let e : Event := ⟨env.ts 0, env.uidgid >>> 32, env.cpu, EVENT_TYPE_KPROBE, env.parm1⟩
  (0, ⟨s.perf.write env.cpu e, bumpCounter s.counters 0⟩)

/-- `tracepoint_perf` (perfbuf_throughput.c lines 72-94): same with
`EVENT_TYPE_TRACEPOINT`, `ctx->args[1]` and counter slot 1. -/
def tracepoint_perf (env : Env) (s : PerfThroughputState) : Nat × PerfThroughputState :=
  let e : Event := ⟨env.ts 0, env.uidgid >>> 32, env.cpu, EVENT_TYPE_TRACEPOINT, env.arg1⟩
  (0, ⟨s.perf.write env.cpu e, bumpCounter s.counters 1⟩)

/-- `raw_tracepoint_perf` (perfbuf_throughput.c lines 102-124): builds the
event but never writes it (raw_tp has no `bpf_perf_event_output` path);
only bumps counter slot 2 and returns 0. -/
def raw_tracepoint_perf (env : Env) (s : PerfThroughputState) : Nat × PerfThroughputState :=
  let _e : Event := ⟨env.ts 0, env.uidgid >>> 32, env.cpu, EVENT_TYPE_TRACEPOINT, 0⟩
  (0, ⟨s.perf, bumpCounter s.counters 2⟩)

/-- Number of bpf helper calls executed by one `hash_map_lookup` invocation
(pid_uid, ktime, lookup, ktime, reserve; plus pid_uid and submit on the
success path).  The program body is straight-line, so the count depends
only on which of the two reserve outcomes is taken. -/
def hash_map_lookup_cost (s : MapOpsState) : Nat :=
  if s.ringbuf.used + latencyEventSize ≤ s.ringbuf.cap then 7 else 5

/-- Helper calls executed by one `hash_map_update` invocation (pid_uid,
ktime, ktime, update, ktime, reserve; plus pid_uid and submit on
success). -/
def hash_map_update_cost (s : MapOpsState) : Nat :=
  if s.ringbuf.used + latencyEventSize ≤ s.ringbuf.cap then 8 else 6

/-- Helper calls executed by one `array_map_benchmark` invocation: the
fetch-and-add runs only when the array lookup returned a slot. -/
def array_map_benchmark_cost (env : Env) (s : MapOpsState) : Nat :=
  (match arrayLookup arrayMapMaxEntries s.array_map (mapKey env.pidtgid) with
    | some _ => 1
    | none => 0) +
  (if s.ringbuf.used + latencyEventSize ≤ s.ringbuf.cap then 7 else 5)

/-- Helper calls executed by one `percpu_array_benchmark` invocation. -/
def percpu_array_benchmark_cost (env : Env) (s : MapOpsState) : Nat :=
  (match arrayLookup percpuArrayMaxEntries (s.percpu_array env.cpu) (mapKey env.pidtgid) with
    | some _ => 1
    | none => 0) +
  (if s.ringbuf.used + latencyEventSize ≤ s.ringbuf.cap then 7 else 5)

/-- Helper calls executed by one `percpu_hash_benchmark` invocation: both
branches of the miss/hit split perform exactly one helper call (update or
fetch-and-add). -/
def percpu_hash_benchmark_cost (s : MapOpsState) : Nat :=
  if s.ringbuf.used + latencyEventSize ≤ s.ringbuf.cap then 8 else 6

/-- Helper calls executed by one `kprobe_openat` invocation: only the
failed reserve on the drop path; reserve, ktime, uid_gid, smp_id, submit,
counter lookup and the conditional fetch-and-add on the publish path. -/
def kprobe_openat_cost (s : RbThroughputState) : Nat :=
  if s.ringbuf.used + eventSize ≤ s.ringbuf.cap then
    match arrayLookup countersMaxEntries s.counters 0 with
    | some _ => 7
    | none => 6
  else 1

/-- Helper calls executed by one `tracepoint_openat` invocation. -/
def tracepoint_openat_cost (s : RbThroughputState) : Nat :=
  if s.ringbuf.used + eventSize ≤ s.ringbuf.cap then
    match arrayLookup countersMaxEntries s.counters 1 with
    | some _ => 7
    | none => 6
  else 1

/-- Helper calls executed by one `raw_tracepoint_handler` invocation. -/
def raw_tracepoint_handler_cost (s : RbThroughputState) : Nat :=
  if s.ringbuf.used + eventSize ≤ s.ringbuf.cap then
    match arrayLookup countersMaxEntries s.counters 2 with
    | some _ => 7
    | none => 6
  else 1

/-- Helper calls executed by one `kprobe_perf` invocation (ktime, uid_gid,
smp_id, perf_event_output, counter lookup, conditional fetch-and-add). -/
def kprobe_perf_cost (s : PerfThroughputState) : Nat :=
  match arrayLookup countersMaxEntries s.counters 0 with
  | some _ => 6
  | none => 5

/-- Helper calls executed by one `tracepoint_perf` invocation. -/
def tracepoint_perf_cost (s : PerfThroughputState) : Nat :=
  match arrayLookup countersMaxEntries s.counters 1 with
  | some _ => 6
  | none => 5

/-- Helper calls executed by one `raw_tracepoint_perf` invocation (no
buffer write at all). -/
def raw_tracepoint_perf_cost (s : PerfThroughputState) : Nat :=
  match arrayLookup countersMaxEntries s.counters 2 with
  | some _ => 5
  | none => 4

/-- Uniform bound on the number of helper calls any producer callback can
execute in one invocation. -/
def producerCostBound : Nat := 8

/-- Modelled from the spec: `StatsRecord` of spec section 3.  The
repository declares the matching `struct stats` (benchmark.h lines 28-33)
but the user-space aggregation code that updates it is not under src/. -/
structure StatsRecord where
  count : Nat
  sum_latency : Nat
  min_latency : Nat
  max_latency : Nat
deriving DecidableEq, Repr

/-- Modelled from the spec: the sentinel carried by `min_latency` while
`count == 0` (spec section 3 invariant); the largest `__u64` value, so the
first merged latency always replaces it. -/
def statsSentinel : Nat := U64 - 1

/-- Modelled from the spec: the fresh record that `lookup_or_init` creates
for an absent key (spec section 4.1): zeroed, except that `min_latency`
holds the section-3 sentinel. -/
def freshStats : StatsRecord := ⟨0, 0, statsSentinel, 0⟩

/-- Modelled from the spec: the merge operation of spec section 3
(`count += 1; sum += delta; min = min(min, delta); max = max(max, delta)`),
with the two `__u64` additions wrapping at 2^64. -/
def StatsRecord.merge (r : StatsRecord) (d : Nat) : StatsRecord :=
  ⟨(r.count + 1) % U64, (r.sum_latency + d) % U64,
    Nat.min r.min_latency d, Nat.max r.max_latency d⟩

/-- Modelled from the spec: the error taxonomy of spec section 7; only
`capacityExceeded` is reachable on the producer path. -/
inductive CaptureError where
  | capacityExceeded
  | shardIndexOutOfRange
  | invalidRecordSize
deriving DecidableEq, Repr

/-- Modelled from the spec: the KeyedAggregator of spec section 4.1 — a
single shared key-to-StatsRecord mapping with a fixed capacity
`max_entries` and a `dropped_updates` counter.  The user-space code
realizing it is not under src/. -/
structure KeyedAggregator where
  max_entries : Nat
  entries : List (Nat × StatsRecord)
  dropped_updates : Nat
deriving DecidableEq, Repr

/-- Modelled from the spec: a freshly initialized, empty aggregator. -/
def KeyedAggregator.init (maxE : Nat) : KeyedAggregator := ⟨maxE, [], 0⟩

/-- Modelled from the spec: read the record currently stored for a key. -/
def KeyedAggregator.lookup (a : KeyedAggregator) (k : Nat) : Option StatsRecord :=
  (a.entries.find? (fun p => p.1 == k)).map Prod.snd

/-- Modelled from the spec: `lookup_or_init(key)` followed by
`merge(key, latency)` (spec section 4.1): an existing record is merged in
place; an absent key is created fresh when capacity allows, and otherwise
the update fails with `CapacityExceeded` and is counted in
`dropped_updates`. -/
def KeyedAggregator.mergeKey (a : KeyedAggregator) (k d : Nat) :
    Except CaptureError Unit × KeyedAggregator :=
  match a.entries.find? (fun p => p.1 == k) with
  | some _ =>
      ((Except.ok ()),
        { a with entries := a.entries.map (fun p => if p.1 == k then (p.1, p.2.merge d) else p) })
  | none =>
      if a.entries.length < a.max_entries then
        (Except.ok (), { a with entries := a.entries ++ [(k, freshStats.merge d)] })
      else
        (Except.error CaptureError.capacityExceeded,
          { a with dropped_updates := a.dropped_updates + 1 })

/-- A fixed kernel context used by the concrete instances below: every
helper call returns 0. -/
def env0 : Env := ⟨0, 0, 0, fun _ => 0, 0, 0⟩

/-- A kernel context whose pid (upper half of `bpf_get_current_pid_uid()`)
is 7 and whose clock always reads 42. -/
def envC1 : Env := ⟨7 <<< 32, 0, 0, fun _ => 42, 0, 0⟩

/-- A kernel context whose clock returns the index of the reading: the
i-th `bpf_ktime_get_ns` call returns i, a monotone sequence. -/
def envMono : Env := ⟨0, 0, 0, fun i => i, 0, 0⟩

/-- Throughput state whose ring buffer is completely full (capacity
exhausted) with all counters zero. -/
def rbFull : RbThroughputState := ⟨⟨ringbufCapacity, ringbufCapacity, []⟩, fun _ => 0⟩

/-- Throughput state with an empty ring buffer and all counters zero. -/
def rbEmpty : RbThroughputState := ⟨⟨ringbufCapacity, 0, []⟩, fun _ => 0⟩

/-- Map-benchmark state whose ring buffer is completely full; every hash
key is present with value 0. -/
def mFull : MapOpsState :=
  ⟨fun _ => some 0, fun _ => 0, fun _ _ => 0, fun _ _ => none,
    ⟨ringbufCapacity, ringbufCapacity, []⟩⟩

/-- Map-benchmark state with an empty ring buffer, zeroed arrays and empty
hash maps. -/
def mEmpty : MapOpsState :=
  ⟨fun _ => none, fun _ => 0, fun _ _ => 0, fun _ _ => none,
    ⟨ringbufCapacity, 0, []⟩⟩

/-- Map-benchmark state identical to `mEmpty` except that the per-CPU hash
of CPU 0 holds 5 at key 0. -/
def mHit5 : MapOpsState :=
  ⟨fun _ => none, fun _ => 0, fun _ _ => 0,
    fun c k => if c = 0 ∧ k = 0 then some 5 else none,
    ⟨ringbufCapacity, 0, []⟩⟩

/-- Perf-buffer state with empty per-CPU buffers of capacity 8 and all
counters zero. -/
def perf0 : PerfThroughputState := ⟨⟨8, fun _ => []⟩, fun _ => 0⟩

/-- The aggregator state reached from a fresh `max_entries = 4`
KeyedAggregator after one merge with latency 10 for each of the keys
0, 1, 2 and 3. -/
def c4AfterFour : KeyedAggregator :=
  [0, 1, 2, 3].foldl (fun a k => (a.mergeKey k 10).2) (KeyedAggregator.init 4)

/-- Claim C1 counterexample: with the ring buffer full, `kprobe_openat`
returns 1 and leaves the state — the ten `counters` slots included —
completely unchanged, so the drop is NOT recorded in any counter; and
`hash_map_update`, invoked with a full ring buffer, has still modified the
hash map (the `bpf_map_update_elem` precedes the reserve), so the reserve
failure does not short-circuit free of map side effects either. -/
theorem claim_C1_counterexample :
    kprobe_openat envC1 rbFull = (1, rbFull) ∧
    (hash_map_update envC1 mFull).1 = 1 ∧
    (hash_map_update envC1 mFull).2.hash_map 7 = some 42 ∧
    mFull.hash_map 7 = some 0 :=
  ⟨rfl, rfl, rfl, rfl⟩

/-- Claim C1 (amended): when `bpf_ringbuf_reserve` returns no slot, each
ring-buffer producer returns 1 immediately: no event becomes visible, the
ring buffer is unchanged, and no counter records the drop — the programs
keep no drop accounting at all; map writes issued before the reserve
attempt (the hash/array/per-CPU updates of the latency benchmarks)
persist. -/
theorem claim_C1_amended (env : Env) (s : RbThroughputState) (m : MapOpsState)
    (hs : s.ringbuf.cap < s.ringbuf.used + eventSize)
    (hm : m.ringbuf.cap < m.ringbuf.used + latencyEventSize) :
    kprobe_openat env s = (1, s) ∧
    tracepoint_openat env s = (1, s) ∧
    raw_tracepoint_handler env s = (1, s) ∧
    hash_map_lookup env m = (1, m) ∧
    (hash_map_update env m).1 = 1 ∧
    (hash_map_update env m).2.ringbuf = m.ringbuf ∧
    (array_map_benchmark env m).1 = 1 ∧
    (array_map_benchmark env m).2.ringbuf = m.ringbuf ∧
    (percpu_array_benchmark env m).1 = 1 ∧
    (percpu_array_benchmark env m).2.ringbuf = m.ringbuf ∧
    (percpu_hash_benchmark env m).1 = 1 ∧
    (percpu_hash_benchmark env m).2.ringbuf = m.ringbuf := by
  have hs2 : ¬ (s.ringbuf.used + eventSize ≤ s.ringbuf.cap) := by omega
  have hm2 : ¬ (m.ringbuf.used + latencyEventSize ≤ m.ringbuf.cap) := by omega
  refine ⟨?_, ?_, ?_, ?_, ?_, ?_, ?_, ?_, ?_, ?_, ?_, ?_⟩
  · simp [kprobe_openat, hs2]
  · simp [tracepoint_openat, hs2]
  · simp [raw_tracepoint_handler, hs2]
  · simp [hash_map_lookup, hm2]
  · simp [hash_map_update, hm2]
  · simp [hash_map_update, hm2]
  · unfold array_map_benchmark
    rcases h : arrayLookup arrayMapMaxEntries m.array_map (mapKey env.pidtgid) with _ | v <;>
      simp [h, hm2]
  · unfold array_map_benchmark
    rcases h : arrayLookup arrayMapMaxEntries m.array_map (mapKey env.pidtgid) with _ | v <;>
      simp [h, hm2]
  · unfold percpu_array_benchmark
    rcases h : arrayLookup percpuArrayMaxEntries (m.percpu_array env.cpu) (mapKey env.pidtgid)
      with _ | v <;> simp [h, hm2]
  · unfold percpu_array_benchmark
    rcases h : arrayLookup percpuArrayMaxEntries (m.percpu_array env.cpu) (mapKey env.pidtgid)
      with _ | v <;> simp [h, hm2]
  · unfold percpu_hash_benchmark
    rcases h : m.percpu_hash env.cpu (mapKey env.pidtgid) with _ | v <;> simp [h, hm2]
  · unfold percpu_hash_benchmark
    rcases h : m.percpu_hash env.cpu (mapKey env.pidtgid) with _ | v <;> simp [h, hm2]

/-- Concrete instance of the amended C1 theorem: both cited producers,
invoked on a full ring buffer, return 1 with the state unchanged. -/
theorem claim_C1_witness :
    kprobe_openat env0 rbFull = (1, rbFull) ∧
    hash_map_lookup env0 mFull = (1, mFull) := by
  have h := claim_C1_amended env0 rbFull mFull (by decide) (by decide)
  exact ⟨h.1, h.2.2.2.1⟩

/-- Claim C2: on each invocation of `percpu_hash_benchmark`, a key absent
from the invoking CPU's shard of `percpu_hash` is initialized to 1 (no
latency sample is merged), and a present key has its stored value
atomically incremented by exactly 1. -/
theorem claim_C2 (env : Env) (s : MapOpsState) :
    (s.percpu_hash env.cpu (mapKey env.pidtgid) = none →
      (percpu_hash_benchmark env s).2.percpu_hash env.cpu (mapKey env.pidtgid) = some 1) ∧
    (∀ v, s.percpu_hash env.cpu (mapKey env.pidtgid) = some v → v + 1 < U64 →
      (percpu_hash_benchmark env s).2.percpu_hash env.cpu (mapKey env.pidtgid) = some (v + 1)) := by
  constructor
  · intro hmiss
    unfold percpu_hash_benchmark
    simp only [hmiss]
    split <;> simp
  · intro v hhit hlt
    unfold percpu_hash_benchmark
    simp only [hhit]
    split <;> simp [Nat.mod_eq_of_lt hlt]

/-- Concrete instance of the C2 theorem: a miss at key 0 initializes it to
1, and a hit holding 5 is incremented to 6. -/
theorem claim_C2_witness :
    (percpu_hash_benchmark env0 mEmpty).2.percpu_hash 0 0 = some 1 ∧
    (percpu_hash_benchmark env0 mHit5).2.percpu_hash 0 0 = some 6 := by
  constructor
  · have h := (claim_C2 env0 mEmpty).1 rfl
    simpa using h
  · have h := (claim_C2 env0 mHit5).2 5 (by decide) (by decide)
    simpa using h

/-- Claim C5: the perf-buffer producers `kprobe_perf` and `tracepoint_perf`
write unconditionally — no reservation step, no backpressure signalled —
and always return 0: the event they build is appended to the invoking
CPU's circular buffer on every invocation, whatever the buffer held. -/
theorem claim_C5 (env : Env) (s : PerfThroughputState) :
    (kprobe_perf env s).1 = 0 ∧
    ((kprobe_perf env s).2.perf.bufs env.cpu).getLast? =
      some ⟨env.ts 0, env.uidgid >>> 32, env.cpu, EVENT_TYPE_KPROBE, env.parm1⟩ ∧
    (tracepoint_perf env s).1 = 0 ∧
    ((tracepoint_perf env s).2.perf.bufs env.cpu).getLast? =
      some ⟨env.ts 0, env.uidgid >>> 32, env.cpu, EVENT_TYPE_TRACEPOINT, env.arg1⟩ := by
  refine ⟨rfl, ?_, rfl, ?_⟩
  · unfold kprobe_perf PerfBuf.write
    split <;> simp
  · unfold tracepoint_perf PerfBuf.write
    split <;> simp

/-- Claim C6 counterexample: run on the same empty buffer, the raw
tracepoint producer publishes an event whose `event_type` equals
`EVENT_TYPE_TRACEPOINT` — the very value the static tracepoint producer
publishes — so it carries no distinct raw-tracepoint type (the header
defines none). -/
theorem claim_C6_counterexample :
    ((raw_tracepoint_handler env0 rbEmpty).2.ringbuf.events.map Event.event_type) =
      [EVENT_TYPE_TRACEPOINT] ∧
    ((tracepoint_openat env0 rbEmpty).2.ringbuf.events.map Event.event_type) =
      [EVENT_TYPE_TRACEPOINT] :=
  ⟨rfl, rfl⟩

/-- Claim C6 (amended): every published event carries the hook-kind
constant the source assigns: `EVENT_TYPE_KPROBE` for the kprobe producers
and `EVENT_TYPE_TRACEPOINT` for both the static-tracepoint AND the
raw-tracepoint producers — the header's event-type constants
(KPROBE, TRACEPOINT, UPROBE, XDP, TC) include no raw-tracepoint member,
and the raw-tracepoint producer reuses the static-tracepoint value. -/
theorem claim_C6_amended (env : Env) (s : RbThroughputState) (p : PerfThroughputState)
    (hroom : s.ringbuf.used + eventSize ≤ s.ringbuf.cap) :
    ((kprobe_openat env s).2.ringbuf.events.getLast?.map Event.event_type) =
      some EVENT_TYPE_KPROBE ∧
    ((tracepoint_openat env s).2.ringbuf.events.getLast?.map Event.event_type) =
      some EVENT_TYPE_TRACEPOINT ∧
    ((raw_tracepoint_handler env s).2.ringbuf.events.getLast?.map Event.event_type) =
      some EVENT_TYPE_TRACEPOINT ∧
    (((kprobe_perf env p).2.perf.bufs env.cpu).getLast?.map Event.event_type) =
      some EVENT_TYPE_KPROBE ∧
    (((tracepoint_perf env p).2.perf.bufs env.cpu).getLast?.map Event.event_type) =
      some EVENT_TYPE_TRACEPOINT := by
  refine ⟨?_, ?_, ?_, ?_, ?_⟩
  · unfold kprobe_openat
    simp [hroom, Ring.submit]
  · unfold tracepoint_openat
    simp [hroom, Ring.submit]
  · unfold raw_tracepoint_handler
    simp [hroom, Ring.submit]
  · unfold kprobe_perf PerfBuf.write
    split <;> simp
  · unfold tracepoint_perf PerfBuf.write
    split <;> simp

/-- Concrete instance of the amended C6 theorem on an empty ring buffer:
the kprobe producer publishes type 1 and the raw-tracepoint producer
publishes type 2, the static-tracepoint value. -/
theorem claim_C6_witness :
    ((kprobe_openat env0 rbEmpty).2.ringbuf.events.getLast?.map Event.event_type) =
      some EVENT_TYPE_KPROBE ∧
    ((raw_tracepoint_handler env0 rbEmpty).2.ringbuf.events.getLast?.map Event.event_type) =
      some EVENT_TYPE_TRACEPOINT := by
  have h := claim_C6_amended env0 rbEmpty perf0 (by decide)
  exact ⟨h.1, h.2.2.1⟩

/-- Folding `StatsRecord.merge` over a latency list adds the list length
to `count` and the list sum to `sum_latency` (as long as neither wraps),
and folds `Nat.min` / `Nat.max` into the extrema fields. -/
theorem foldl_merge_spec (ls : List Nat) (r : StatsRecord)
    (hc : r.count + ls.length < U64) (hs : r.sum_latency + ls.sum < U64) :
    (ls.foldl StatsRecord.merge r).count = r.count + ls.length ∧
    (ls.foldl StatsRecord.merge r).sum_latency = r.sum_latency + ls.sum ∧
    (ls.foldl StatsRecord.merge r).min_latency = ls.foldl Nat.min r.min_latency ∧
    (ls.foldl StatsRecord.merge r).max_latency = ls.foldl Nat.max r.max_latency := by
  induction ls generalizing r with
  | nil => simp
  | cons x xs ih =>
    simp only [List.length_cons, List.sum_cons] at hc hs
    have h1 : r.count + 1 < U64 := by omega
    have h2 : r.sum_latency + x < U64 := by omega
    have hc2 : (r.merge x).count + xs.length < U64 := by
      simp [StatsRecord.merge, Nat.mod_eq_of_lt h1]
      omega
    have hs2 : (r.merge x).sum_latency + xs.sum < U64 := by
      simp [StatsRecord.merge, Nat.mod_eq_of_lt h2]
      omega
    obtain ⟨e1, e2, e3, e4⟩ := ih (r.merge x) hc2 hs2
    refine ⟨?_, ?_, ?_, ?_⟩
    · rw [List.foldl_cons, e1, List.length_cons]
      simp [StatsRecord.merge, Nat.mod_eq_of_lt h1]
      omega
    · rw [List.foldl_cons, e2, List.sum_cons]
      simp [StatsRecord.merge, Nat.mod_eq_of_lt h2]
      omega
    · rw [List.foldl_cons, e3, List.foldl_cons]
      simp [StatsRecord.merge]
    · rw [List.foldl_cons, e4, List.foldl_cons]
      simp [StatsRecord.merge]

/-- A `Nat.min` fold is a lower bound for its seed and for every element
of the list. -/
theorem foldl_min_le_all (ls : List Nat) (a : Nat) :
    ls.foldl Nat.min a ≤ a ∧ ∀ l ∈ ls, ls.foldl Nat.min a ≤ l := by
  induction ls generalizing a with
  | nil => simp
  | cons x xs ih =>
    obtain ⟨h1, h2⟩ := ih (Nat.min a x)
    refine ⟨le_trans h1 (Nat.min_le_left a x), ?_⟩
    intro l hl
    rcases List.mem_cons.mp hl with rfl | hmem
    · exact le_trans h1 (Nat.min_le_right a l)
    · exact h2 l hmem

/-- A `Nat.min` fold returns its seed or some element of the list. -/
theorem foldl_min_mem (ls : List Nat) (a : Nat) :
    ls.foldl Nat.min a = a ∨ ls.foldl Nat.min a ∈ ls := by
  induction ls generalizing a with
  | nil => exact Or.inl rfl
  | cons x xs ih =>
    rcases ih (Nat.min a x) with h | h
    · rcases Nat.le_total a x with hax | hxa
      · refine Or.inl ?_
        rw [List.foldl_cons, h]
        exact Nat.min_eq_left hax
      · refine Or.inr (List.mem_cons.mpr (Or.inl ?_))
        rw [List.foldl_cons, h]
        exact Nat.min_eq_right hxa
    · exact Or.inr (List.mem_cons.mpr (Or.inr h))

/-- A `Nat.max` fold is an upper bound for its seed and for every element
of the list. -/
theorem foldl_max_ge_all (ls : List Nat) (a : Nat) :
    a ≤ ls.foldl Nat.max a ∧ ∀ l ∈ ls, l ≤ ls.foldl Nat.max a := by
  induction ls generalizing a with
  | nil => simp
  | cons x xs ih =>
    obtain ⟨h1, h2⟩ := ih (Nat.max a x)
    refine ⟨le_trans (Nat.le_max_left a x) h1, ?_⟩
    intro l hl
    rcases List.mem_cons.mp hl with rfl | hmem
    · exact le_trans (Nat.le_max_right a l) h1
    · exact h2 l hmem

/-- A `Nat.max` fold returns its seed or some element of the list. -/
theorem foldl_max_mem (ls : List Nat) (a : Nat) :
    ls.foldl Nat.max a = a ∨ ls.foldl Nat.max a ∈ ls := by
  induction ls generalizing a with
  | nil => exact Or.inl rfl
  | cons x xs ih =>
    rcases ih (Nat.max a x) with h | h
    · rcases Nat.le_total a x with hax | hxa
      · refine Or.inr (List.mem_cons.mpr (Or.inl ?_))
        rw [List.foldl_cons, h]
        exact Nat.max_eq_right hax
      · refine Or.inl ?_
        rw [List.foldl_cons, h]
        exact Nat.max_eq_left hxa
    · exact Or.inr (List.mem_cons.mpr (Or.inr h))

/-- Claim C3: merging the latencies `l_1..l_N` (each a `__u64` value,
with neither the count nor the sum wrapping) into a fresh StatsRecord
yields `count = N`, `sum_latency = sum of the l_i`, and `min_latency` /
`max_latency` equal to the least / greatest of the `l_i` (each is an
element of the list bounding all the others). -/
theorem claim_C3 (ls : List Nat) (hne : ls ≠ [])
    (hlt : ∀ l ∈ ls, l < U64) (hlen : ls.length < U64) (hsum : ls.sum < U64) :
    (ls.foldl StatsRecord.merge freshStats).count = ls.length ∧
    (ls.foldl StatsRecord.merge freshStats).sum_latency = ls.sum ∧
    ((ls.foldl StatsRecord.merge freshStats).min_latency ∈ ls ∧
      ∀ l ∈ ls, (ls.foldl StatsRecord.merge freshStats).min_latency ≤ l) ∧
    ((ls.foldl StatsRecord.merge freshStats).max_latency ∈ ls ∧
      ∀ l ∈ ls, l ≤ (ls.foldl StatsRecord.merge freshStats).max_latency) := by
  have hfc : freshStats.count = 0 := rfl
  have hfs : freshStats.sum_latency = 0 := rfl
  have hfmin : freshStats.min_latency = U64 - 1 := rfl
  have hfmax : freshStats.max_latency = 0 := rfl
  have hu : 0 < U64 := Nat.pos_pow_of_pos 64 (by omega)
  have hc : freshStats.count + ls.length < U64 := by omega
  have hs : freshStats.sum_latency + ls.sum < U64 := by omega
  obtain ⟨e1, e2, e3, e4⟩ := foldl_merge_spec ls freshStats hc hs
  obtain ⟨l0, hl0⟩ := List.exists_mem_of_ne_nil ls hne
  refine ⟨by omega, by omega, ?_, ?_⟩
  · obtain ⟨hseed, hbound⟩ := foldl_min_le_all ls freshStats.min_latency
    rw [e3]
    refine ⟨?_, hbound⟩
    rcases foldl_min_mem ls freshStats.min_latency with h | h
    · have hlow := hbound l0 hl0
      have hl064 := hlt l0 hl0
      have heq : ls.foldl Nat.min freshStats.min_latency = l0 := by omega
      rw [heq]
      exact hl0
    · exact h
  · obtain ⟨hseed, hbound⟩ := foldl_max_ge_all ls freshStats.max_latency
    rw [e4]
    refine ⟨?_, hbound⟩
    rcases foldl_max_mem ls freshStats.max_latency with h | h
    · have hlow := hbound l0 hl0
      have heq : ls.foldl Nat.max freshStats.max_latency = l0 := by omega
      rw [heq]
      exact hl0
    · exact h

/-- Concrete instance of the C3 theorem: merging 10, 5 and 7 into a fresh
record yields count 3, sum 22, minimum 5 and maximum 10. -/
theorem claim_C3_witness :
    (([10, 5, 7] : List Nat).foldl StatsRecord.merge freshStats).count = 3 ∧
    (([10, 5, 7] : List Nat).foldl StatsRecord.merge freshStats).sum_latency = 22 ∧
    (([10, 5, 7] : List Nat).foldl StatsRecord.merge freshStats).min_latency = 5 ∧
    (([10, 5, 7] : List Nat).foldl StatsRecord.merge freshStats).max_latency = 10 := by
  have h := claim_C3 [10, 5, 7] (by decide) (by decide) (by decide) (by decide)
  exact ⟨h.1, h.2.1, by decide, by decide⟩

/-- Claim C4: from a fresh KeyedAggregator with `max_entries = 4`, one
merge with latency 10 for each of the keys 0..4 leaves keys 0-3 present
with count 1, sum 10, min 10 and max 10, while the merge for key 4 fails
with `CapacityExceeded`, key 4 stays absent, and exactly one dropped
update is counted. -/
theorem claim_C4 :
    c4AfterFour.lookup 0 = some ⟨1, 10, 10, 10⟩ ∧
    c4AfterFour.lookup 1 = some ⟨1, 10, 10, 10⟩ ∧
    c4AfterFour.lookup 2 = some ⟨1, 10, 10, 10⟩ ∧
    c4AfterFour.lookup 3 = some ⟨1, 10, 10, 10⟩ ∧
    c4AfterFour.dropped_updates = 0 ∧
    (c4AfterFour.mergeKey 4 10).1 = Except.error CaptureError.capacityExceeded ∧
    (c4AfterFour.mergeKey 4 10).2.dropped_updates = 1 ∧
    (c4AfterFour.mergeKey 4 10).2.lookup 4 = none :=
  ⟨rfl, rfl, rfl, rfl, rfl, rfl, rfl, rfl⟩

/-- Claim C7: every producer callback (all five map benchmarks, the three
ring-buffer producers and the three perf-buffer producers) is a total
function of its inputs and pre-call state whose body is loop-free: the
number of bpf helper calls it executes is bounded by the constant
`producerCostBound` on every input; each cost function mirrors the branch
structure of the corresponding straight-line body. -/
theorem claim_C7 (env : Env) (s : RbThroughputState) (m : MapOpsState)
    (p : PerfThroughputState) :
    hash_map_lookup_cost m ≤ producerCostBound ∧
    hash_map_update_cost m ≤ producerCostBound ∧
    array_map_benchmark_cost env m ≤ producerCostBound ∧
    percpu_array_benchmark_cost env m ≤ producerCostBound ∧
    percpu_hash_benchmark_cost m ≤ producerCostBound ∧
    kprobe_openat_cost s ≤ producerCostBound ∧
    tracepoint_openat_cost s ≤ producerCostBound ∧
    raw_tracepoint_handler_cost s ≤ producerCostBound ∧
    kprobe_perf_cost p ≤ producerCostBound ∧
    tracepoint_perf_cost p ≤ producerCostBound ∧
    raw_tracepoint_perf_cost p ≤ producerCostBound := by
  unfold hash_map_lookup_cost hash_map_update_cost array_map_benchmark_cost
    percpu_array_benchmark_cost percpu_hash_benchmark_cost kprobe_openat_cost
    tracepoint_openat_cost raw_tracepoint_handler_cost kprobe_perf_cost
    tracepoint_perf_cost raw_tracepoint_perf_cost producerCostBound
  refine ⟨?_, ?_, ?_, ?_, ?_, ?_, ?_, ?_, ?_, ?_, ?_⟩ <;>
    (repeat' split) <;> omega

/-- Claim C8: on every invocation of a map benchmark, the computed key is
the caller's pid masked with 0xFF, hence below 256 and strictly below the
`max_entries` of every map the benchmarks index, so the array-map and
per-CPU-array lookups always return a slot. -/
theorem claim_C8 (pidtgid : Nat) (m : MapOpsState) (cpu : Nat) :
    mapKey pidtgid = (pidtgid >>> 32) % 256 ∧
    mapKey pidtgid < arrayMapMaxEntries ∧
    mapKey pidtgid < percpuArrayMaxEntries ∧
    mapKey pidtgid < percpuHashMaxEntries ∧
    mapKey pidtgid < hashMapMaxEntries ∧
    (arrayLookup arrayMapMaxEntries m.array_map (mapKey pidtgid)).isSome = true ∧
    (arrayLookup percpuArrayMaxEntries (m.percpu_array cpu) (mapKey pidtgid)).isSome = true := by
  have hmod : mapKey pidtgid = (pidtgid >>> 32) % 256 := by
    have h := Nat.and_pow_two_sub_one_eq_mod (pidtgid >>> 32) 8
    norm_num at h
    simpa [mapKey] using h
  have hlt : mapKey pidtgid < 256 := by
    rw [hmod]
    exact Nat.mod_lt _ (by omega)
  refine ⟨hmod, ?_, ?_, ?_, ?_, ?_, ?_⟩
  · simpa [arrayMapMaxEntries] using hlt
  · simpa [percpuArrayMaxEntries] using hlt
  · have : (256 : Nat) < 1024 := by omega
    simp only [percpuHashMaxEntries]
    omega
  · simp only [hashMapMaxEntries]
    omega
  · simp [arrayLookup, arrayMapMaxEntries, hlt]
  · simp [arrayLookup, percpuArrayMaxEntries, hlt]

/-- Claim C9: each throughput producer touches only its own fixed counter
slot — 0 for the kprobe producers, 1 for the static-tracepoint producers,
2 for the raw-tracepoint producers — and leaves every other slot of the
`counters` array unchanged on every invocation. -/
theorem claim_C9 (env : Env) (s : RbThroughputState) (p : PerfThroughputState) (j : Nat) :
    (j ≠ 0 → (kprobe_openat env s).2.counters j = s.counters j) ∧
    (j ≠ 1 → (tracepoint_openat env s).2.counters j = s.counters j) ∧
    (j ≠ 2 → (raw_tracepoint_handler env s).2.counters j = s.counters j) ∧
    (j ≠ 0 → (kprobe_perf env p).2.counters j = p.counters j) ∧
    (j ≠ 1 → (tracepoint_perf env p).2.counters j = p.counters j) ∧
    (j ≠ 2 → (raw_tracepoint_perf env p).2.counters j = p.counters j) := by
  refine ⟨?_, ?_, ?_, ?_, ?_, ?_⟩
  · intro hj
    unfold kprobe_openat bumpCounter
    (repeat' split) <;> simp [hj]
  · intro hj
    unfold tracepoint_openat bumpCounter
    (repeat' split) <;> simp [hj]
  · intro hj
    unfold raw_tracepoint_handler bumpCounter
    (repeat' split) <;> simp [hj]
  · intro hj
    unfold kprobe_perf bumpCounter
    (repeat' split) <;> simp [hj]
  · intro hj
    unfold tracepoint_perf bumpCounter
    (repeat' split) <;> simp [hj]
  · intro hj
    unfold raw_tracepoint_perf bumpCounter
    (repeat' split) <;> simp [hj]

/-- Concrete instance of the C9 theorem: slot 5 survives both a
ring-buffer and a perf-buffer producer invocation unchanged. -/
theorem claim_C9_witness :
    (kprobe_openat env0 rbEmpty).2.counters 5 = rbEmpty.counters 5 ∧
    (kprobe_perf env0 perf0).2.counters 5 = perf0.counters 5 := by
  have h := claim_C9 env0 rbEmpty perf0 5
  exact ⟨h.1 (by decide), h.2.2.2.1 (by decide)⟩

/-- Claim C10: if the clock readings within one invocation are monotone,
every latency event a map benchmark adds to the ring buffer satisfies
`timestamp_start ≤ timestamp_end` (events already present before the call
are untouched). -/
theorem claim_C10 (env : Env) (s : MapOpsState)
    (hmono : ∀ i j, i ≤ j → env.ts i ≤ env.ts j) :
    (∀ e ∈ (hash_map_lookup env s).2.ringbuf.events,
      e ∈ s.ringbuf.events ∨ e.timestamp_start ≤ e.timestamp_end) ∧
    (∀ e ∈ (hash_map_update env s).2.ringbuf.events,
      e ∈ s.ringbuf.events ∨ e.timestamp_start ≤ e.timestamp_end) ∧
    (∀ e ∈ (array_map_benchmark env s).2.ringbuf.events,
      e ∈ s.ringbuf.events ∨ e.timestamp_start ≤ e.timestamp_end) ∧
    (∀ e ∈ (percpu_array_benchmark env s).2.ringbuf.events,
      e ∈ s.ringbuf.events ∨ e.timestamp_start ≤ e.timestamp_end) ∧
    (∀ e ∈ (percpu_hash_benchmark env s).2.ringbuf.events,
      e ∈ s.ringbuf.events ∨ e.timestamp_start ≤ e.timestamp_end) := by
  refine ⟨?_, ?_, ?_, ?_, ?_⟩
  · intro e he
    unfold hash_map_lookup at he
    split at he
    · simp [Ring.submit] at he
      rcases he with he | he
      · exact Or.inl he
      · subst he
        exact Or.inr (hmono 0 1 (by omega))
    · exact Or.inl he
  · intro e he
    unfold hash_map_update at he
    dsimp only at he
    split at he
    · simp [Ring.submit] at he
      rcases he with he | he
      · exact Or.inl he
      · subst he
        exact Or.inr (hmono 1 2 (by omega))
    · simp at he
      exact Or.inl he
  · intro e he
    unfold array_map_benchmark at he
    rcases h : arrayLookup arrayMapMaxEntries s.array_map (mapKey env.pidtgid) with _ | v <;>
      simp only [h] at he <;> split at he <;> simp [Ring.submit] at he ⊢ <;>
      first
        | exact Or.inl he
        | (rcases he with he | he
           · exact Or.inl he
           · subst he
             exact Or.inr (hmono 0 1 (by omega)))
  · intro e he
    unfold percpu_array_benchmark at he
    rcases h : arrayLookup percpuArrayMaxEntries (s.percpu_array env.cpu) (mapKey env.pidtgid)
      with _ | v <;>
      simp only [h] at he <;> split at he <;> simp [Ring.submit] at he ⊢ <;>
      first
        | exact Or.inl he
        | (rcases he with he | he
           · exact Or.inl he
           · subst he
             exact Or.inr (hmono 0 1 (by omega)))
  · intro e he
    unfold percpu_hash_benchmark at he
    rcases h : s.percpu_hash env.cpu (mapKey env.pidtgid) with _ | v <;>
      simp only [h] at he <;> split at he <;> simp [Ring.submit] at he ⊢ <;>
      first
        | exact Or.inl he
        | (rcases he with he | he
           · exact Or.inl he
           · subst he
             exact Or.inr (hmono 0 1 (by omega)))

/-- Concrete instance of the C10 theorem: with the identity clock, the
single event recorded by `hash_map_lookup` on an empty buffer has
start 0 and end 1, and indeed start ≤ end. -/
theorem claim_C10_witness :
    (hash_map_lookup envMono mEmpty).2.ringbuf.events = [⟨0, 1, 0, 0⟩] ∧
    (⟨0, 1, 0, 0⟩ : LatencyEvent).timestamp_start ≤
      (⟨0, 1, 0, 0⟩ : LatencyEvent).timestamp_end := by
  constructor
  · rfl
  · have h := (claim_C10 envMono mEmpty (fun i j hij => hij)).1 ⟨0, 1, 0, 0⟩ (by decide)
    rcases h with h | h
    · exact absurd h (by decide)
    · exact h

end EbpfBench
